import Mathlib

/-!
Verification of the `BiasAdjustment` real-time bias smoother
(`apply_adjust_bias.py`).

The Python class holds six scalar fields and exposes four methods:
`validate_bias_input` (acceptTarget), `update_target_bias`,
`calculate_bias` (computeValue) and `apply_bias` (step).  We embed the
state as a structure over the reals, each method as a pure function
returning the new state together with its return value, and prove the
specification's properties about them.
-/

open scoped Classical

noncomputable section

/-- State of the smoother: the fields of the Python class `BiasAdjustment`. -/
structure BiasAdjustment where
  response_time : ℝ
  bias_level : ℝ
  target_bias : ℝ
  last_target_bias : ℝ
  target_index : ℝ
  last_update_index : ℝ

/-- Constructor (`__init__`): `bias_level = last_target_bias = bias_init`,
`target_bias = 0`, both indices `0`. -/
def init (response_time : ℝ) (bias_init : ℝ) : BiasAdjustment :=
  { response_time := response_time
    bias_level := bias_init
    target_bias := 0
    last_target_bias := bias_init
    target_index := 0
    last_update_index := 0 }

/-- `update_target_bias`: record the old target as `last_target_bias`, install
the new target, and set the set/arrive indices. -/
def update_target_bias (s : BiasAdjustment) (new_index new_bias : ℝ) : BiasAdjustment :=
  { s with
    last_target_bias := s.target_bias
    target_bias := new_bias
    target_index := new_index + s.response_time
    last_update_index := new_index }

/-- `validate_bias_input` (acceptTarget): if the proposed bias differs from the
stored target, perform the update and report `true`; otherwise do nothing and
report `false`.  Returns the new state together with the boolean. -/
def validate_bias_input (s : BiasAdjustment) (index bias_input : ℝ) :
    BiasAdjustment × Bool :=
  if s.target_bias ≠ bias_input then (update_target_bias s index bias_input, true)
  else (s, false)

/-- `calculate_bias` (computeValue): dispatch on the policy string, compute the
new `bias_level`, store it, and return it together with the new state. -/
def calculate_bias (s : BiasAdjustment) (current_index : ℝ) (bias_type : String) :
    BiasAdjustment × ℝ :=
  let time_elapsed := current_index - s.last_update_index
  let bias_level :=
    if bias_type = "gradual" then
      if current_index < s.target_index then
        s.bias_level + (s.target_bias - s.bias_level) *
          (1 - Real.exp (-time_elapsed / s.response_time))
      else
        s.target_bias
    else if bias_type = "linear" then
      if current_index < s.target_index then
        (s.target_bias - s.last_target_bias) / (s.target_index - s.last_update_index) *
          (current_index - s.last_update_index) + s.last_target_bias
      else
        s.target_bias
    else
      s.bias_level
  ({ s with bias_level := bias_level }, bias_level)

/-- `apply_bias` (step): accept the target, then recompute when the target just
changed or the index has not passed the arrival index; otherwise return the
stored level unchanged. -/
def apply_bias (s : BiasAdjustment) (index bias_input : ℝ) (bias_type : String) :
    BiasAdjustment × ℝ :=
  let r := validate_bias_input s index bias_input
  if r.2 = true ∨ index ≤ r.1.target_index then
    calculate_bias r.1 index bias_type
  else
    (r.1, r.1.bias_level)

/-- States reachable from construction through the class methods, for a tracker
constructed with response time `R`. -/
inductive Reachable (R : ℝ) : BiasAdjustment → Prop
  | base (b : ℝ) : Reachable R (init R b)
  | update (s : BiasAdjustment) (i b : ℝ) :
      Reachable R s → Reachable R (update_target_bias s i b)
  | validate (s : BiasAdjustment) (i b : ℝ) :
      Reachable R s → Reachable R (validate_bias_input s i b).1
  | compute (s : BiasAdjustment) (i : ℝ) (p : String) :
      Reachable R s → Reachable R (calculate_bias s i p).1
  | step (s : BiasAdjustment) (i b : ℝ) (p : String) :
      Reachable R s → Reachable R (apply_bias s i b p).1

/-- Structural invariant maintained by every method: the response-time field
is the construction-time `R`, and either no target update has happened yet
(both indices still `0`) or the two indices differ by exactly `R`. -/
def goodState (R : ℝ) (s : BiasAdjustment) : Prop :=
  s.response_time = R ∧
    ((s.target_index = 0 ∧ s.last_update_index = 0) ∨
      s.target_index - s.last_update_index = R)

/-- Iterated `calculate_bias` along a sequence of query indices:
`iterCalc s idx p n` is the state after querying at `idx 0, …, idx (n-1)`. -/
def iterCalc (s : BiasAdjustment) (idx : ℕ → ℝ) (p : String) : ℕ → BiasAdjustment
  | 0 => s
  | n + 1 => (calculate_bias (iterCalc s idx p n) (idx n) p).1

/-- Concrete tracker used by the witnesses: response time 20, initial value 0,
then a target of 10 accepted at index 0. -/
def sA : BiasAdjustment := update_target_bias (init 20 0) 0 10

/-- Concrete strictly increasing query-index sequence bounded inside `[0, 1)`,
used by the monotonicity witness. -/
def wIdx : ℕ → ℝ := fun n => 1 - 1 / (n + 1)

-- sanity checks on the embedding
example : (init 20 7).target_bias = 0 := rfl
example : sA.target_index = 0 + 20 := rfl
example : (calculate_bias sA 25 "gradual").2 = (10 : ℝ) := by
  norm_num [calculate_bias, sA, update_target_bias, init]

/-- `calculate_bias` only ever rewrites the `bias_level` field; the other five
fields pass through unchanged. -/
theorem calculate_bias_fst (s : BiasAdjustment) (i : ℝ) (p : String) :
    (calculate_bias s i p).1 = { s with bias_level := (calculate_bias s i p).2 } := rfl

/-- C1: at or after the arrival index, both recognized policies snap
`bias_level` to exactly the stored target and return it; in particular, after a
target `T` is installed at index `i`, querying at `i + response_time` returns
exactly `T`. -/
theorem calculate_bias_at_arrival (s : BiasAdjustment) (i : ℝ) (p : String)
    (hp : p = "gradual" ∨ p = "linear") :
    (s.target_index ≤ i →
      calculate_bias s i p = ({ s with bias_level := s.target_bias }, s.target_bias)) ∧
    (∀ T : ℝ, calculate_bias (update_target_bias s i T) (i + s.response_time) p =
      ({ update_target_bias s i T with bias_level := T }, T)) := by
  constructor
  · intro hi
    rcases hp with hp | hp <;> subst hp <;>
      simp [calculate_bias, not_lt.mpr hi]
  · intro T
    have h1 : ¬ i + s.response_time < (update_target_bias s i T).target_index := by
      simp [update_target_bias]
    rcases hp with hp | hp <;> subst hp <;>
      simp [calculate_bias, h1, update_target_bias]

/-- C1 witness: the tracker `sA` (target 10 set at index 0, response time 20)
queried at its arrival index 20 under both policies. -/
theorem calculate_bias_at_arrival_witness :
    calculate_bias sA 20 "gradual" = ({ sA with bias_level := sA.target_bias }, sA.target_bias) :=
  (calculate_bias_at_arrival sA 20 "gradual" (Or.inl rfl)).1
    (by norm_num [sA, update_target_bias, init])

/-- C2: strictly before arrival, the GRADUAL policy updates `bias_level` by the
first-order-lag recurrence
`bias_level + (target_bias - bias_level) * (1 - exp (-(i - last_update_index) / response_time))`
and returns the new value. -/
theorem calculate_bias_gradual_formula (s : BiasAdjustment) (i : ℝ)
    (h : i < s.target_index) :
    calculate_bias s i "gradual" =
      ({ s with bias_level := s.bias_level + (s.target_bias - s.bias_level) *
          (1 - Real.exp (-(i - s.last_update_index) / s.response_time)) },
        s.bias_level + (s.target_bias - s.bias_level) *
          (1 - Real.exp (-(i - s.last_update_index) / s.response_time))) := by
  simp [calculate_bias, h]

/-- C2 witness: the recurrence formula at index 5 on the tracker `sA`. -/
theorem calculate_bias_gradual_formula_witness :
    calculate_bias sA 5 "gradual" =
      ({ sA with bias_level := sA.bias_level + (sA.target_bias - sA.bias_level) *
          (1 - Real.exp (-(5 - sA.last_update_index) / sA.response_time)) },
        sA.bias_level + (sA.target_bias - sA.bias_level) *
          (1 - Real.exp (-(5 - sA.last_update_index) / sA.response_time))) :=
  calculate_bias_gradual_formula sA 5 (by norm_num [sA, update_target_bias, init])

/-- C3: strictly before arrival, the LINEAR policy sets `bias_level` to
`slope * (i - last_update_index) + last_target_bias` with
`slope = (target_bias - last_target_bias) / (target_index - last_update_index)`,
stores it, and the result does not depend on the prior `bias_level`. -/
theorem calculate_bias_linear_formula (s : BiasAdjustment) (i : ℝ)
    (h : i < s.target_index) (hne : s.target_index ≠ s.last_update_index) :
    (calculate_bias s i "linear").2 =
      (s.target_bias - s.last_target_bias) / (s.target_index - s.last_update_index) *
        (i - s.last_update_index) + s.last_target_bias ∧
    (calculate_bias s i "linear").1 =
      { s with bias_level := (calculate_bias s i "linear").2 } ∧
    ∀ v : ℝ, (calculate_bias { s with bias_level := v } i "linear").2 =
      (calculate_bias s i "linear").2 := by
  refine ⟨?_, rfl, ?_⟩
  · simp [calculate_bias, h]
  · intro v
    simp [calculate_bias, h]

/-- C3 witness: the linear ramp formula at index 5 on the tracker `sA`. -/
theorem calculate_bias_linear_formula_witness :
    (calculate_bias sA 5 "linear").2 =
      (sA.target_bias - sA.last_target_bias) / (sA.target_index - sA.last_update_index) *
        (5 - sA.last_update_index) + sA.last_target_bias ∧
    (calculate_bias sA 5 "linear").1 =
      { sA with bias_level := (calculate_bias sA 5 "linear").2 } ∧
    ∀ v : ℝ, (calculate_bias { sA with bias_level := v } 5 "linear").2 =
      (calculate_bias sA 5 "linear").2 :=
  calculate_bias_linear_formula sA 5 (by norm_num [sA, update_target_bias, init])
    (by norm_num [sA, update_target_bias, init])

/-- C7: any policy string other than `"gradual"` and `"linear"` is a hold: the
state is returned unchanged (structure included) and the unchanged
`bias_level` is returned. -/
theorem calculate_bias_unknown_policy (s : BiasAdjustment) (i : ℝ) (p : String)
    (h1 : p ≠ "gradual") (h2 : p ≠ "linear") :
    calculate_bias s i p = (s, s.bias_level) := by
  simp [calculate_bias, h1, h2]

/-- C7 witness: the policy `"bogus"` holds the tracker `sA` fixed. -/
theorem calculate_bias_unknown_policy_witness :
    calculate_bias sA 5 "bogus" = (sA, sA.bias_level) :=
  calculate_bias_unknown_policy sA 5 "bogus" (by decide) (by decide)

/-- C10: a freshly constructed tracker has `target_bias = 0` and both indices
`0`, so the first `calculate_bias` at any index `≥ 0` under either recognized
policy takes the arrival branch and sets `bias_level` to `0`, discarding the
initial value. -/
theorem init_first_compute (R b i : ℝ) (p : String)
    (hp : p = "gradual" ∨ p = "linear") (hi : 0 ≤ i) :
    (init R b).target_bias = 0 ∧ (init R b).last_update_index = 0 ∧
    (init R b).target_index = 0 ∧
    calculate_bias (init R b) i p = ({ init R b with bias_level := 0 }, 0) := by
  refine ⟨rfl, rfl, rfl, ?_⟩
  have h : ¬ i < (0 : ℝ) := not_lt.mpr hi
  rcases hp with hp | hp <;> subst hp <;> simp [calculate_bias, init, h]

/-- The target-update step leaves the response time unchanged. -/
theorem update_preserves_response_time (s : BiasAdjustment) (i b : ℝ) :
    (update_target_bias s i b).response_time = s.response_time := rfl

/-- C4: a candidate differing from the stored target triggers an update:
`validate_bias_input` returns `true`, the old target becomes
`last_target_bias`, the candidate becomes the target, the set index becomes
`i`, and the arrival index becomes `i + response_time`; consequently
`target_index = last_update_index + response_time` after the update. -/
theorem validate_bias_input_updates (s : BiasAdjustment) (i b : ℝ)
    (h : b ≠ s.target_bias) :
    validate_bias_input s i b = (update_target_bias s i b, true) ∧
    (update_target_bias s i b).last_target_bias = s.target_bias ∧
    (update_target_bias s i b).target_bias = b ∧
    (update_target_bias s i b).last_update_index = i ∧
    (update_target_bias s i b).target_index = i + s.response_time ∧
    (update_target_bias s i b).target_index =
      (update_target_bias s i b).last_update_index +
        (update_target_bias s i b).response_time := by
  refine ⟨?_, rfl, rfl, rfl, rfl, rfl⟩
  simp [validate_bias_input, Ne.symm h]

/-- C4 witness: accepting target 10 at index 0 on a fresh tracker. -/
theorem validate_bias_input_updates_witness :
    validate_bias_input (init 20 0) 0 10 = (update_target_bias (init 20 0) 0 10, true) ∧
    (update_target_bias (init 20 0) 0 10).last_target_bias = (init 20 0).target_bias ∧
    (update_target_bias (init 20 0) 0 10).target_bias = 10 ∧
    (update_target_bias (init 20 0) 0 10).last_update_index = 0 ∧
    (update_target_bias (init 20 0) 0 10).target_index = 0 + (init 20 0).response_time ∧
    (update_target_bias (init 20 0) 0 10).target_index =
      (update_target_bias (init 20 0) 0 10).last_update_index +
        (update_target_bias (init 20 0) 0 10).response_time :=
  validate_bias_input_updates (init 20 0) 0 10 (by norm_num [init])

/-- C5: a candidate equal to the stored target is rejected with the whole state
unchanged, and a second consecutive call with the same candidate (after any
first call) returns `false` without touching the state. -/
theorem validate_bias_input_idempotent (s : BiasAdjustment) (i : ℝ) :
    validate_bias_input s i s.target_bias = (s, false) ∧
    ∀ T j : ℝ, validate_bias_input (validate_bias_input s j T).1 i T =
      ((validate_bias_input s j T).1, false) := by
  constructor
  · simp [validate_bias_input]
  · intro T j
    by_cases hT : s.target_bias = T <;>
      simp [validate_bias_input, update_target_bias, hT]

/-- If `validate_bias_input` reports no change, the state it returns is the
input state itself. -/
theorem validate_bias_input_false (s : BiasAdjustment) (i b : ℝ)
    (h : (validate_bias_input s i b).2 = false) :
    (validate_bias_input s i b).1 = s := by
  by_cases hb : s.target_bias = b <;> simp [validate_bias_input, hb] at h ⊢

/-- C6: `apply_bias` routes through `validate_bias_input` first; it recomputes
via `calculate_bias` exactly when the target just changed or
`index ≤ target_index` (as left by the accept step), and otherwise returns the
stored `bias_level` with the state untouched. -/
theorem apply_bias_spec (s : BiasAdjustment) (i b : ℝ) (p : String) :
    ((validate_bias_input s i b).2 = true ∨ i ≤ (validate_bias_input s i b).1.target_index →
      apply_bias s i b p = calculate_bias (validate_bias_input s i b).1 i p) ∧
    ((validate_bias_input s i b).2 = false →
      ¬ i ≤ (validate_bias_input s i b).1.target_index →
      apply_bias s i b p = (s, s.bias_level)) := by
  constructor
  · intro h
    simp only [apply_bias]
    rw [if_pos h]
  · intro hch hle
    have hs : (validate_bias_input s i b).1 = s := validate_bias_input_false s i b hch
    have hcond : ¬ ((validate_bias_input s i b).2 = true ∨
        i ≤ (validate_bias_input s i b).1.target_index) := by
      rintro (h | h)
      · rw [hch] at h
        exact Bool.false_ne_true h
      · exact hle h
    simp only [apply_bias]
    rw [if_neg hcond, hs]

/-- C6 witness: on the settled tracker `sA` with an unchanged target, a query
past the arrival index takes the fast path and mutates nothing. -/
theorem apply_bias_spec_witness :
    apply_bias sA 30 10 "gradual" = (sA, sA.bias_level) :=
  (apply_bias_spec sA 30 10 "gradual").2
    (by norm_num [validate_bias_input, sA, update_target_bias, init])
    (by norm_num [validate_bias_input, sA, update_target_bias, init])

/-- An accepted (differing) candidate makes `validate_bias_input` a target
update reporting `true`. -/
theorem validate_bias_input_eq_update (s : BiasAdjustment) (i b : ℝ)
    (h : s.target_bias ≠ b) :
    validate_bias_input s i b = (update_target_bias s i b, true) := by
  simp [validate_bias_input, h]

/-- A candidate equal to the stored target makes `validate_bias_input` a
no-op reporting `false`. -/
theorem validate_bias_input_eq_same (s : BiasAdjustment) (i b : ℝ)
    (h : s.target_bias = b) :
    validate_bias_input s i b = (s, false) := by
  simp [validate_bias_input, h]

theorem goodState_update (R : ℝ) (s : BiasAdjustment) (i b : ℝ)
    (h : goodState R s) : goodState R (update_target_bias s i b) :=
  ⟨h.1, Or.inr (by simp [update_target_bias, h.1])⟩

theorem goodState_validate (R : ℝ) (s : BiasAdjustment) (i b : ℝ)
    (h : goodState R s) : goodState R (validate_bias_input s i b).1 := by
  by_cases hb : s.target_bias = b
  · rw [validate_bias_input_eq_same s i b hb]
    exact h
  · rw [validate_bias_input_eq_update s i b hb]
    exact goodState_update R s i b h

theorem goodState_compute (R : ℝ) (s : BiasAdjustment) (i : ℝ) (p : String)
    (h : goodState R s) : goodState R (calculate_bias s i p).1 :=
  ⟨h.1, h.2⟩

theorem goodState_apply (R : ℝ) (s : BiasAdjustment) (i b : ℝ) (p : String)
    (h : goodState R s) : goodState R (apply_bias s i b p).1 := by
  simp only [apply_bias]
  split_ifs with hc
  · exact goodState_compute R _ i p (goodState_validate R s i b h)
  · exact goodState_validate R s i b h

/-- Every reachable state satisfies the structural invariant `goodState`. -/
theorem reachable_invariant (R : ℝ) (s : BiasAdjustment) (hs : Reachable R s) :
    goodState R s := by
  induction hs with
  | base b => exact ⟨rfl, Or.inl ⟨rfl, rfl⟩⟩
  | update s i b hs ih => exact goodState_update R s i b ih
  | validate s i b hs ih => exact goodState_validate R s i b ih
  | compute s i p hs ih => exact goodState_compute R s i p ih
  | step s i b p hs ih => exact goodState_apply R s i b p ih

/-- C8 counterexample: it is not true that for every tracker built with a
positive response time, every reachable state, and every index inside the
pre-arrival branch, the linear-slope divisor `target_index - last_update_index`
is nonzero: the freshly constructed state with response time 20 has
`target_index = last_update_index = 0`, and index `-1` takes the branch. -/
theorem linear_divisor_counterexample :
    ¬ (∀ R : ℝ, 0 < R → ∀ s : BiasAdjustment, Reachable R s → ∀ i : ℝ,
        i < s.target_index → s.target_index - s.last_update_index ≠ 0) := by
  intro h
  exact h 20 (by norm_num) (init 20 0) (Reachable.base 0) (-1)
    (by norm_num [init]) (by norm_num [init])

/-- C8 amended: for a tracker constructed with response time `R > 0`, in every
reachable state the linear-slope divisor is nonzero whenever the pre-arrival
branch is taken at a non-negative index (the divisor is zero only in the
pre-first-update state, whose branch is reachable only with a negative
index). -/
theorem linear_divisor_nonzero (R : ℝ) (hR : 0 < R) (s : BiasAdjustment)
    (hs : Reachable R s) (i : ℝ) (hi : 0 ≤ i) (hlt : i < s.target_index) :
    s.target_index - s.last_update_index ≠ 0 := by
  obtain ⟨-, h⟩ := reachable_invariant R s hs
  rcases h with ⟨h1, _⟩ | h2
  · rw [h1] at hlt
    linarith
  · rw [h2]
    exact ne_of_gt hR

/-- C8 amended witness: the tracker `sA` (one update performed, response time
20) queried at index 5. -/
theorem linear_divisor_nonzero_witness :
    sA.target_index - sA.last_update_index ≠ 0 :=
  linear_divisor_nonzero 20 (by norm_num) sA
    (Reachable.update (init 20 0) 0 10 (Reachable.base 0)) 5 (by norm_num)
    (by norm_num [sA, update_target_bias, init])

/-- For a nonnegative elapsed time and a positive time constant, the gradual
step factor `1 - exp (-e / t)` lies in `[0, 1]`. -/
theorem one_sub_exp_factor_bounds {e t : ℝ} (ht : 0 < t) (he : 0 ≤ e) :
    0 ≤ 1 - Real.exp (-e / t) ∧ 1 - Real.exp (-e / t) ≤ 1 := by
  have hle : Real.exp (-e / t) ≤ 1 := by
    rw [Real.exp_le_one_iff]
    exact div_nonpos_of_nonpos_of_nonneg (neg_nonpos.mpr he) ht.le
  have hpos := Real.exp_pos (-e / t)
  constructor <;> linarith

/-- One GRADUAL query strictly before arrival, at an index past the last
update, moves the level toward the target without overshooting. -/
theorem gradual_step_bounds (s : BiasAdjustment) (i : ℝ)
    (hR : 0 < s.response_time) (hb : s.bias_level ≤ s.target_bias)
    (hlo : s.last_update_index ≤ i) (hhi : i < s.target_index) :
    s.bias_level ≤ (calculate_bias s i "gradual").2 ∧
    (calculate_bias s i "gradual").2 ≤ s.target_bias := by
  have hval : (calculate_bias s i "gradual").2 =
      s.bias_level + (s.target_bias - s.bias_level) *
        (1 - Real.exp (-(i - s.last_update_index) / s.response_time)) := by
    simp [calculate_bias, hhi]
  have he : 0 ≤ i - s.last_update_index := by linarith
  obtain ⟨h0, h1⟩ := one_sub_exp_factor_bounds hR he
  have hgap : 0 ≤ s.target_bias - s.bias_level := by linarith
  rw [hval]
  constructor
  · nlinarith [mul_nonneg hgap h0]
  · nlinarith [mul_nonneg hgap (by linarith :
      0 ≤ 1 - (1 - Real.exp (-(i - s.last_update_index) / s.response_time)))]

/-- Querying only rewrites `bias_level`: the iterated state keeps the other
five fields of the starting state, and under the C9 hypotheses its level never
exceeds the target. -/
theorem iterCalc_gradual_invariant (s : BiasAdjustment) (idx : ℕ → ℝ)
    (hR : 0 < s.response_time) (hb : s.bias_level ≤ s.target_bias)
    (hlo : ∀ n, s.last_update_index ≤ idx n)
    (hhi : ∀ n, idx n < s.target_index) :
    ∀ n, (iterCalc s idx "gradual" n).response_time = s.response_time ∧
      (iterCalc s idx "gradual" n).target_bias = s.target_bias ∧
      (iterCalc s idx "gradual" n).last_update_index = s.last_update_index ∧
      (iterCalc s idx "gradual" n).target_index = s.target_index ∧
      (iterCalc s idx "gradual" n).bias_level ≤ s.target_bias := by
  intro n
  induction n with
  | zero => exact ⟨rfl, rfl, rfl, rfl, hb⟩
  | succ n ih =>
      obtain ⟨h1, h2, h3, h4, h5⟩ := ih
      refine ⟨h1, h2, h3, h4, ?_⟩
      have hstep := gradual_step_bounds (iterCalc s idx "gradual" n) (idx n)
        (h1 ▸ hR) (by rw [h2]; exact h5) (h3 ▸ hlo n) (h4 ▸ hhi n)
      have : (iterCalc s idx "gradual" (n + 1)).bias_level =
          (calculate_bias (iterCalc s idx "gradual" n) (idx n) "gradual").2 := rfl
      rw [this, ← h2]
      exact hstep.2

/-- C9: starting from a state whose level is below its target, repeated
GRADUAL queries at strictly increasing indices, all at or past the set index
and strictly before the arrival index, produce a non-decreasing sequence of
levels that never exceeds the target. -/
theorem gradual_monotone_approach (s : BiasAdjustment) (idx : ℕ → ℝ)
    (hR : 0 < s.response_time) (hbt : s.bias_level < s.target_bias)
    (hmono : ∀ n, idx n < idx (n + 1))
    (hlo : ∀ n, s.last_update_index ≤ idx n)
    (hhi : ∀ n, idx n < s.target_index) :
    ∀ n, (iterCalc s idx "gradual" n).bias_level ≤
        (iterCalc s idx "gradual" (n + 1)).bias_level ∧
      (iterCalc s idx "gradual" (n + 1)).bias_level ≤ s.target_bias := by
  intro n
  obtain ⟨h1, h2, h3, h4, h5⟩ :=
    iterCalc_gradual_invariant s idx hR hbt.le hlo hhi n
  have hstep := gradual_step_bounds (iterCalc s idx "gradual" n) (idx n)
    (h1 ▸ hR) (by rw [h2]; exact h5) (h3 ▸ hlo n) (h4 ▸ hhi n)
  have heq : (iterCalc s idx "gradual" (n + 1)).bias_level =
      (calculate_bias (iterCalc s idx "gradual" n) (idx n) "gradual").2 := rfl
  rw [heq, ← h2]
  exact hstep

/-- C9 witness: the tracker `sA` (level 0, target 10), queried along the
strictly increasing bounded sequence `wIdx`: the first computed level is
sandwiched between the starting level and the target. -/
theorem gradual_monotone_approach_witness :
    (iterCalc sA wIdx "gradual" 0).bias_level ≤
      (iterCalc sA wIdx "gradual" 1).bias_level ∧
    (iterCalc sA wIdx "gradual" 1).bias_level ≤ sA.target_bias := by
  have hR : (0 : ℝ) < sA.response_time := by norm_num [sA, update_target_bias, init]
  have hbt : sA.bias_level < sA.target_bias := by norm_num [sA, update_target_bias, init]
  have hmono : ∀ n : ℕ, wIdx n < wIdx (n + 1) := by
    intro n
    have h1 : (0 : ℝ) < (n : ℝ) + 1 := by positivity
    have h2 : (0 : ℝ) < (n : ℝ) + 1 + 1 := by positivity
    have : 1 / ((n : ℝ) + 1 + 1) < 1 / ((n : ℝ) + 1) :=
      one_div_lt_one_div_of_lt h1 (by linarith)
    simp only [wIdx]
    push_cast
    linarith
  have hlo : ∀ n : ℕ, sA.last_update_index ≤ wIdx n := by
    intro n
    have h1 : (0 : ℝ) < (n : ℝ) + 1 := by positivity
    have h2 : 1 / ((n : ℝ) + 1) ≤ 1 := by
      rw [div_le_one h1]
      linarith
    have h3 : (0 : ℝ) ≤ 1 - 1 / ((n : ℝ) + 1) := by linarith
    simpa [sA, update_target_bias, init, wIdx] using h3
  have hhi : ∀ n : ℕ, wIdx n < sA.target_index := by
    intro n
    have h1 : (0 : ℝ) < (n : ℝ) + 1 := by positivity
    have h2 : 0 < 1 / ((n : ℝ) + 1) := by positivity
    have h3 : wIdx n < 1 := by
      simp only [wIdx]
      linarith
    have h4 : sA.target_index = 20 := by norm_num [sA, update_target_bias, init]
    rw [h4]
    linarith
  exact gradual_monotone_approach sA wIdx hR hbt hmono hlo hhi 0

/-- C10 witness: response time 20, initial value 7, first query at index 0
under GRADUAL yields 0. -/
theorem init_first_compute_witness :
    (init 20 7).target_bias = 0 ∧ (init 20 7).last_update_index = 0 ∧
    (init 20 7).target_index = 0 ∧
    calculate_bias (init 20 7) 0 "gradual" = ({ init 20 7 with bias_level := 0 }, 0) :=
  init_first_compute 20 7 0 "gradual" (Or.inl rfl) (by norm_num)

end
